import Mathlib

/-!
Verification of the `otelcompare` trace package (`pkg/trace`).

This file gives a shallow embedding of the pure core of the repository:
the data model (`Trace`, `Span`, `Event`, `TraceSet`), the duration
calculator (`getTraceDuration`), the identity resolver
(`getTraceIdentifier`), the formatting utilities (`formatDuration`,
`truncateID`), and the three reporters (`generateMarkdown`,
`compareTraces`, `compareMultipleTraces`).

Modelling conventions:

* Go `time.Time` and `time.Duration` are modelled as `Int` nanoseconds.
  `t.Sub(u)`, `Before` and `After` become integer subtraction and `<`/`>`.
  (int64 overflow and `Sub`'s saturation are not modelled; every value
  appearing in the claims is far below the int64 range.)
* Go `map[string]T` values are modelled as association lists
  `List (String × T)` with unique keys.  Map assignment `m[k] = v` is
  `mapInsert` (replacing an existing binding), lookup is `List.lookup`.
  Go's `range` over a map yields the entries in an unspecified order;
  every reporter therefore takes an explicit iteration-order oracle
  `ord : {α : Type} → List α → List α`, applied exactly at the `range`
  sites of the source.  Theorems about behaviour that Go does guarantee
  assume only that the oracle permutes its argument; two program runs
  correspond to two different oracles.
* `sort.Slice` is modelled by `sortGo`, the insertion sort that Go's
  `sort.Slice` performs for slices of length ≤ 12 (its `pdqsort` uses the
  insertion-sort path below the `maxInsertion = 12` threshold).  For
  longer slices Go's result is some other sorted permutation; theorems
  proved below rely only on sortedness/permutation properties that hold
  for any such result, and no claim about tie order beyond 12 elements is
  settled from this model.  `sort.Strings` sorts by a total order, where
  the sorted result is unique, so `sortGo` models it exactly.
* `%.2f`/`%.1f` float formatting is idealised as exact rational rounding
  (round half to even).  Go formats the nearest `float64`, which can
  differ in the final digit for values that are not exactly representable;
  all concrete values evaluated in this file are exactly representable.
-/

set_option maxRecDepth 100000

namespace OtelCompare

open scoped List

/-- Event models the Go struct `Event` (span event). -/
structure Event where
  time : Int
  name : String
  attributes : List (String × String)
deriving DecidableEq, Repr

/-- Span models the Go struct `Span` (a single span in a trace). -/
structure Span where
  spanID : String
  parentSpanID : String
  name : String
  startTime : Int
  endTime : Int
  attributes : List (String × String)
  events : List Event
deriving DecidableEq, Repr

/-- Trace models the Go struct `Trace` (a complete OpenTelemetry trace). -/
structure Trace where
  traceID : String
  spans : List Span
  attributes : List (String × String)
  resourceAttrs : List (String × String)
deriving DecidableEq, Repr

/-- TraceSet models the Go struct `TraceSet` (a named set of traces). -/
structure TraceSet where
  name : String
  traces : List Trace
deriving DecidableEq, Repr

/-- Go map assignment `m[k] = v`: replace the binding of `k` if present,
otherwise add one. -/
def mapInsert (m : List (String × α)) (k : String) (v : α) : List (String × α) :=
  if (m.lookup k).isSome then
    m.map (fun kv => if kv.1 == k then (k, v) else kv)
  else
    m ++ [(k, v)]

/-- Go `map[string]bool` used as a set: `m[k] = true`. -/
def setInsert (m : List String) (k : String) : List String :=
  if k ∈ m then m else m ++ [k]

/-- Duration of a single span, `span.EndTime.Sub(span.StartTime)`. -/
def spanDuration (s : Span) : Int :=
  s.endTime - s.startTime

/-- getTraceDuration models the Go function `getTraceDuration`: starting
from the first span it keeps the earliest start time (`Before`, i.e. `<`)
and the latest end time (`After`, i.e. `>`) and returns their difference;
a trace without spans has duration 0. -/
def getTraceDuration (t : Trace) : Int :=
  match t.spans with
  | [] => 0
  | s :: rest =>
    let p := rest.foldl
      (fun (p : Int × Int) (span : Span) =>
        (if span.startTime < p.1 then span.startTime else p.1,
         if p.2 < span.endTime then span.endTime else p.2))
      (s.startTime, s.endTime)
    p.2 - p.1

/-- Trace duration as the specification states it: the maximum
end-timestamp over all spans minus the minimum start-timestamp over all
spans, and 0 for a trace with no spans. -/
def specTraceDuration (t : Trace) : Int :=
  match (t.spans.map Span.endTime).max?, (t.spans.map Span.startTime).min? with
  | some M, some m => M - m
  | _, _ => 0

lemma foldl_minmax_pair (l : List Span) (a b : Int) :
    l.foldl
      (fun (p : Int × Int) (span : Span) =>
        (if span.startTime < p.1 then span.startTime else p.1,
         if p.2 < span.endTime then span.endTime else p.2))
      (a, b)
    = ((l.map Span.startTime).foldl min a, (l.map Span.endTime).foldl max b) := by
  induction l generalizing a b with
  | nil => rfl
  | cons s rest ih =>
    simp only [List.foldl_cons, List.map_cons]
    rw [ih]
    congr 1
    · by_cases h : s.startTime < a
      · simp [h, min_eq_right (le_of_lt h)]
      · simp [h, min_eq_left (not_lt.mp h)]
    · by_cases h : b < s.endTime
      · simp [h, max_eq_right (le_of_lt h)]
      · simp [h, max_eq_left (not_lt.mp h)]

/-- C1: for every trace, `getTraceDuration` is 0 when the trace has no
spans, and otherwise is the maximum end-timestamp over all spans minus the
minimum start-timestamp over all spans (the wall-clock envelope). -/
theorem getTraceDuration_eq_envelope (t : Trace) :
    getTraceDuration t = specTraceDuration t := by
  unfold getTraceDuration specTraceDuration
  match t.spans with
  | [] => rfl
  | s :: rest =>
    simp only [List.map_cons, List.max?_cons', List.min?_cons']
    rw [foldl_minmax_pair]

/-- getTraceIdentifier models the Go function `getTraceIdentifier` (the
Go parameter `attribute` is a Lean keyword and is named `attr` here): the
`trace_id` attribute returns the trace id, the `name` attribute returns
the first root span's name (falling back to the first span's name, or
`"Unknown Trace"` for an empty trace), and any other attribute is looked
up in the trace attributes, then the resource attributes, then falls back
to the trace id. -/
def getTraceIdentifier (t : Trace) (attr : String) : String :=
  if attr == "trace_id" then
    t.traceID
  else if attr == "name" then
    match t.spans with
    | [] => "Unknown Trace"
    | s0 :: _ =>
      match t.spans.find? (fun s => s.parentSpanID == "") with
      | some s => s.name
      | none => s0.name
  else
    match t.attributes.lookup attr with
    | some v => v
    | none =>
      match t.resourceAttrs.lookup attr with
      | some v => v
      | none => t.traceID

/-- Identity resolution as the specification states it, written from the
spec's words: `trace_id` returns the stored identifier verbatim; `name`
returns the name of the first span whose parent id is empty, else the
first span's name in sequence order, else the literal `"Unknown Trace"`;
any other attribute returns the trace-attribute value, else the
resource-attribute value, else the trace identifier. -/
def specIdentify (t : Trace) (attr : String) : String :=
  if attr = "trace_id" then
    t.traceID
  else if attr = "name" then
    match t.spans.filter (fun s => s.parentSpanID == "") with
    | root :: _ => root.name
    | [] =>
      match t.spans with
      | [] => "Unknown Trace"
      | s0 :: _ => s0.name
  else
    ((t.attributes.lookup attr).or
      ((t.resourceAttrs.lookup attr).or (some t.traceID))).getD t.traceID

lemma find?_eq_head_filter (p : Span → Bool) (l : List Span) :
    l.find? p = (l.filter p).head? := by
  induction l with
  | nil => rfl
  | cons s rest ih =>
    by_cases h : p s
    · simp [List.find?_cons, List.filter_cons, h]
    · simp only [List.find?_cons, List.filter_cons]
      rw [if_neg (by simpa using h)]
      simp only [h, cond_false]
      exact ih

/-- C2: for every trace and attribute string, `getTraceIdentifier` obeys
the documented rule chain: `trace_id` returns the stored identifier
verbatim; `name` returns the name of the first span with an empty parent
id, else the first span's name in sequence order, else `"Unknown Trace"`
when the span sequence is empty; any other attribute returns the
trace-attribute value, else the resource-attribute value, else the trace
identifier. -/
theorem getTraceIdentifier_eq_spec (t : Trace) (attr : String) :
    getTraceIdentifier t attr = specIdentify t attr := by
  unfold getTraceIdentifier specIdentify
  by_cases h1 : attr = "trace_id"
  · simp [h1]
  · rw [if_neg (by simpa using h1), if_neg h1]
    by_cases h2 : attr = "name"
    · rw [if_pos (by simpa using h2), if_pos h2]
      match hs : t.spans with
      | [] => rfl
      | s0 :: rest =>
        simp only
        rw [find?_eq_head_filter]
        cases hfil : (s0 :: rest).filter (fun s => s.parentSpanID == "") with
        | nil => rfl
        | cons r tl => rfl
    · rw [if_neg (by simpa using h2), if_neg h2]
      match t.attributes.lookup attr with
      | some v => rfl
      | none =>
        match t.resourceAttrs.lookup attr with
        | some v => rfl
        | none => rfl

/-- truncateID models the Go helper `truncateID`: an identifier longer
than 8 characters is cut to its first 8 characters.  (Go measures bytes;
identifiers here are ASCII, where bytes and characters coincide.) -/
def truncateID (id : String) : String :=
  if id.length > 8 then String.mk (id.toList.take 8) else id

/-- getFileNameWithoutExt models the Go helper of the same name:
`strings.TrimSuffix(fileName, ".json")`. -/
def getFileNameWithoutExt (fileName : String) : String :=
  if fileName.endsWith ".json" then fileName.dropRight 5 else fileName

/-- Round `num / den` (with `den > 0`, `num ≥ 0` at call sites) to the
nearest integer, ties to even — the rounding `%.2f` performs. -/
def roundHalfEven (num den : Int) : Int :=
  let q := num / den
  let r := num % den
  if 2 * r < den then q
  else if den < 2 * r then q + 1
  else if q % 2 = 0 then q else q + 1

/-- Two-digit zero padding for the fractional part of `%.2f`. -/
def pad2 (n : Int) : String :=
  if n < 10 then "0" ++ toString n else toString n

/-- Render `ns / scale` with two decimal places followed by `unit`,
modelling `fmt.Sprintf` with a `%.2f` verb (exact rational rounding; see
the file header for the float64 caveat). -/
def fmt2 (ns : Int) (scale : Int) (unit : String) : String :=
  let h := roundHalfEven ((ns.natAbs : Int) * 100) scale
  (if ns < 0 then "-" else "") ++ toString (h / 100) ++ "." ++ pad2 (h % 100) ++ unit

/-- Microsecond branch of `formatDuration`:
`fmt.Sprintf("%.2fµs", float64(d.Nanoseconds())/1000.0)`. -/
def fmtMicro (d : Int) : String :=
  fmt2 d 1000 "µs"

/-- Millisecond branch of `formatDuration`:
`fmt.Sprintf("%.2fms", float64(d.Milliseconds()))`.  `d.Milliseconds()`
is the integer division `d / 1e6`, so the fraction is always `.00`; this
branch is only reached for `1e6 ≤ d < 1e9`, where the division by 1e6 of
nonnegative values truncates identically in Go and here. -/
def fmtMilli (d : Int) : String :=
  toString (d / 1000000) ++ ".00ms"

/-- Second branch of `formatDuration`: `fmt.Sprintf("%.2fs", d.Seconds())`. -/
def fmtSec (d : Int) : String :=
  fmt2 d 1000000000 "s"

/-- formatDuration models the Go function `formatDuration`: durations
below one millisecond (including all negative ones) are rendered in
microseconds, durations below one second in milliseconds, and the rest in
seconds. -/
def formatDuration (d : Int) : String :=
  if d < 1000000 then fmtMicro d
  else if d < 1000000000 then fmtMilli d
  else fmtSec d

/-- C10: every strictly negative duration takes the microsecond branch of
`formatDuration` (a negative value is below one millisecond), so a
malformed span with end before start is rendered in microseconds with two
decimal places regardless of magnitude; in particular minus two seconds
renders as `"-2000000.00µs"`, never with a millisecond or second unit. -/
theorem formatDuration_neg_micro :
    (∀ d : Int, d < 0 → formatDuration d = fmtMicro d) ∧
      formatDuration (-2000000000) = "-2000000.00µs" := by
  constructor
  · intro d h
    unfold formatDuration
    rw [if_pos (lt_trans h (by norm_num))]
  · decide

/-- Witness for C10 at the concrete input d = -2 seconds. -/
theorem formatDuration_neg_micro_witness :
    (-2000000000 : Int) < 0 ∧ formatDuration (-2000000000) = fmtMicro (-2000000000) :=
  ⟨by decide, formatDuration_neg_micro.1 (-2000000000) (by decide)⟩

/-- Stable insertion step: place `x` before the first element `y` of the
already-sorted prefix with `less x y`, after all earlier elements. -/
def insGo (less : α → α → Bool) (x : α) : List α → List α
  | [] => [x]
  | y :: ys => if less x y then x :: y :: ys else y :: insGo less x ys

/-- sortGo models `sort.Slice(s, less)` by the stable insertion sort that
Go itself runs for slices of length ≤ 12 (see the file header); it also
models `sort.Strings`, whose total order makes the sorted result unique. -/
def sortGo (less : α → α → Bool) (l : List α) : List α :=
  l.foldl (fun acc x => insGo less x acc) []

lemma insGo_perm (less : α → α → Bool) (x : α) (l : List α) :
    insGo less x l ~ x :: l := by
  induction l with
  | nil => exact List.Perm.refl _
  | cons y ys ih =>
    unfold insGo
    by_cases h : less x y
    · rw [if_pos h]
    · rw [if_neg h]
      exact (ih.cons y).trans (List.Perm.swap x y ys)

lemma foldl_insGo_perm (less : α → α → Bool) (l acc : List α) :
    l.foldl (fun acc x => insGo less x acc) acc ~ acc ++ l := by
  induction l generalizing acc with
  | nil => simp
  | cons x xs ih =>
    calc (x :: xs).foldl (fun acc x => insGo less x acc) acc
        = xs.foldl (fun acc x => insGo less x acc) (insGo less x acc) := by rfl
      _ ~ insGo less x acc ++ xs := ih _
      _ ~ (x :: acc) ++ xs := (insGo_perm less x acc).append_right xs
      _ ~ acc ++ x :: xs := List.perm_middle.symm

lemma sortGo_perm (less : α → α → Bool) (l : List α) :
    sortGo less l ~ l := by
  simpa using foldl_insGo_perm less l []

lemma mem_insGo {less : α → α → Bool} {x z : α} {l : List α} :
    z ∈ insGo less x l ↔ z = x ∨ z ∈ l := by
  rw [(insGo_perm less x l).mem_iff, List.mem_cons]

lemma insGo_pairwise {less : α → α → Bool}
    (htrans : ∀ a b c, less a b = true → less b c = true → less a c = true)
    (hasym : ∀ a b, less a b = true → less b a = false)
    {x : α} {l : List α} (hl : l.Pairwise (fun a b => less b a = false)) :
    (insGo less x l).Pairwise (fun a b => less b a = false) := by
  induction l with
  | nil => simp [insGo]
  | cons y ys ih =>
    unfold insGo
    rcases List.pairwise_cons.mp hl with ⟨hy, hys⟩
    by_cases h : less x y
    · rw [if_pos h]
      refine List.pairwise_cons.mpr ⟨?_, hl⟩
      intro z hz
      rcases List.mem_cons.mp hz with rfl | hz
      · exact hasym x z h
      · rcases hb : less z x with _ | _
        · rfl
        · exact absurd (htrans z x y hb h) (by simp [hy z hz])
    · rw [if_neg h]
      refine List.pairwise_cons.mpr ⟨?_, ih hys⟩
      intro z hz
      rcases mem_insGo.mp hz with rfl | hz
      · exact Bool.eq_false_iff.mpr (by simpa using h)
      · exact hy z hz

lemma sortGo_pairwise {less : α → α → Bool}
    (htrans : ∀ a b c, less a b = true → less b c = true → less a c = true)
    (hasym : ∀ a b, less a b = true → less b a = false)
    (l : List α) :
    (sortGo less l).Pairwise (fun a b => less b a = false) := by
  have haux : ∀ (l acc : List α),
      acc.Pairwise (fun a b => less b a = false) →
      (l.foldl (fun acc x => insGo less x acc) acc).Pairwise
        (fun a b => less b a = false) := by
    intro l
    induction l with
    | nil => intro acc h; exact h
    | cons x xs ih => intro acc h; exact ih _ (insGo_pairwise htrans hasym h)
  exact haux l [] (by simp)

/-- sortStrings models Go `sort.Strings`. -/
def sortStrings (l : List String) : List String :=
  sortGo (fun a b => decide (a < b)) l

lemma sortStrings_sorted (l : List String) :
    (sortStrings l).Sorted (· ≤ ·) := by
  have h := @sortGo_pairwise String (fun a b : String => decide (a < b))
    (fun a b c hab hbc => by
      simp only [decide_eq_true_eq] at *
      exact lt_trans hab hbc)
    (fun a b hab => by
      simp only [decide_eq_true_eq, decide_eq_false_iff_not] at *
      exact lt_asymm hab) l
  refine List.Pairwise.imp ?_ h
  intro a b hab
  simp only [decide_eq_false_iff_not, not_lt] at hab
  exact hab

lemma sortStrings_perm (l : List String) : sortStrings l ~ l :=
  sortGo_perm _ l

lemma sortStrings_congr_perm {l₁ l₂ : List String} (h : l₁ ~ l₂) :
    sortStrings l₁ = sortStrings l₂ :=
  List.eq_of_perm_of_sorted
    ((sortStrings_perm l₁).trans (h.trans (sortStrings_perm l₂).symm))
    (sortStrings_sorted l₁) (sortStrings_sorted l₂)

/-- Iteration-order oracle for Go's `range` over a map: one program run
corresponds to one choice of `ord`; Go guarantees only that `ord`
permutes the entries. -/
abbrev RangeOrd : Type 1 :=
  (α : Type) → List α → List α

/-- Identity oracle: iterate in stored (association-list) order. -/
def idOrd : RangeOrd :=
  fun _ l => l

/-- Reversing oracle: iterate in reversed order (one of the orders a Go
map range is permitted to produce). -/
def revOrd : RangeOrd :=
  fun _ l => l.reverse

/-- Comparison used to sort traces by duration, descending:
`getTraceDuration(traces[i]) > getTraceDuration(traces[j])`. -/
def traceLess (i j : Trace) : Bool :=
  decide (getTraceDuration j < getTraceDuration i)

/-- Comparison used to sort spans by duration, descending:
`spans[i].EndTime.Sub(spans[i].StartTime) > spans[j].EndTime.Sub(spans[j].StartTime)`. -/
def spanLess (i j : Span) : Bool :=
  decide (spanDuration j < spanDuration i)

/-- Zero value of `Span`, used only as the (never reached) default of an
always-in-range index lookup. -/
def defaultSpan : Span :=
  ⟨"", "", "", 0, 0, [], []⟩

/-- The per-trace `spanMap` of `GenerateMarkdown`
(`spanMap[t.Spans[i].SpanID] = &t.Spans[i]`).  A Go pointer into the
slice denotes a position in the backing array, so the map stores the
index `i`; a later in-place sort of the spans changes what the pointer
dereferences to, which this index model reproduces. -/
def buildSpanIndexMap (spans : List Span) : List (String × Nat) :=
  spans.enum.foldl (fun m p => mapInsert m p.2.spanID p.1) []

/-- The `traceSpanMaps` map of `GenerateMarkdown`, keyed by trace id
(built from the caller's traces before any sorting). -/
def traceSpanMaps (traces : List Trace) : List (String × List (String × Nat)) :=
  traces.foldl (fun m t => mapInsert m t.traceID (buildSpanIndexMap t.spans)) []

/-- Overview-table row of `GenerateMarkdown`
(`"| `%s` | %s | %s | %d |\n"`). -/
def overviewRow (t : Trace) : String :=
  "| `" ++ truncateID t.traceID ++ "` | " ++ getTraceIdentifier t "name" ++ " | "
    ++ formatDuration (getTraceDuration t) ++ " | " ++ toString t.spans.length ++ " |\n"

/-- Parent-name resolution of the span-detail table: `"root"` for an
empty parent id, otherwise the name found by dereferencing the (stale,
pre-sort) span pointer stored in `traceSpanMaps`, with `"root"` again on
a lookup miss.  `sortedSpans` is the trace's span sequence as already
sorted in place by the detail-table sort; the stored index is always in
range for it because it indexes the same backing array.  (Two traces
sharing a trace id would make the Go pointer reach into the other
trace's array; that aliasing is not modelled, and no input used here
duplicates trace ids.) -/
def parentNameOf (spanMaps : List (String × List (String × Nat)))
    (tid : String) (sortedSpans : List Span) (span : Span) : String :=
  if span.parentSpanID == "" then "root"
  else
    match spanMaps.lookup tid with
    | some sm =>
      match sm.lookup span.parentSpanID with
      | some idx => (sortedSpans.getD idx defaultSpan).name
      | none => "root"
    | none => "root"

/-- Span-detail rows of one (span-sorted) trace
(`"| `%s` | `%s` | %s | %s | %s |\n"`). -/
def spanDetailRows (spanMaps : List (String × List (String × Nat))) (t : Trace) : String :=
  String.join (t.spans.map (fun span =>
    "| `" ++ truncateID t.traceID ++ "` | `" ++ truncateID span.spanID ++ "` | "
      ++ span.name ++ " | " ++ formatDuration (spanDuration span) ++ " | "
      ++ parentNameOf spanMaps t.traceID t.spans span ++ " |\n"))

/-- showSpan models the recursive Go function `showSpan`: render every
span whose parent id equals `parentID` (in span-sequence order), with its
attributes and events, then recurse into its children.  Go's recursion is
unbounded (it diverges on a cyclic parent chain); the model carries fuel,
and the top-level call supplies enough fuel for any acyclic input. -/
def showSpan (ord : RangeOrd) (spans : List Span) (parentID : String) : Nat → String
  | 0 => ""
  | fuel + 1 =>
    String.join (spans.map (fun span =>
      if span.parentSpanID == parentID then
        "- **" ++ span.name ++ "** (" ++ formatDuration (spanDuration span) ++ ")\n"
        ++ (if span.attributes.length > 0 then
              "  **Attributes:**\n"
              ++ String.join ((ord _ span.attributes).map (fun kv =>
                   "  - " ++ kv.1 ++ ": " ++ kv.2 ++ "\n"))
            else "")
        ++ (if span.events.length > 0 then
              "  **Events:**\n"
              ++ String.join (span.events.map (fun event =>
                   "  - " ++ event.name ++ "\n"
                   ++ (if event.attributes.length > 0 then
                         String.join ((ord _ event.attributes).map (fun kv =>
                           "    - " ++ kv.1 ++ ": " ++ kv.2 ++ "\n"))
                       else "")))
            else "")
        ++ showSpan ord spans span.spanID fuel
      else ""))

/-- Visit order of `showSpan`: the spans it renders, in rendering order,
at and below one level. -/
def showSpanOrder (spans : List Span) (parentID : String) : Nat → List Span
  | 0 => []
  | fuel + 1 =>
    (spans.map (fun span =>
      if span.parentSpanID == parentID then
        span :: showSpanOrder spans span.spanID fuel
      else [])).flatten

/-- In-place span sort performed per trace by the span-detail table
(`sort.Slice(spans, ...)` on `spans := t.Spans`, which shares the
caller's backing array). -/
def spanSortTrace (t : Trace) : Trace :=
  { t with spans := sortGo spanLess t.spans }

/-- Expandable per-trace block of `GenerateMarkdown` (trace attribute
table if non-empty, then the hierarchical span listing).  At this point
of the Go code the trace's spans have already been sorted in place by the
detail-table sort, so `t` here is the span-sorted trace. -/
def traceDetailsBlock (ord : RangeOrd) (t : Trace) : String :=
  "<details>\n<summary>Trace " ++ truncateID t.traceID ++ " ("
    ++ getTraceIdentifier t "name" ++ ")</summary>\n\n"
  ++ (if t.attributes.length > 0 then
        "**Trace Attributes:**\n\n| Key | Value |\n|-----|--------|\n"
        ++ String.join ((ord _ t.attributes).map (fun kv =>
             "| " ++ kv.1 ++ " | " ++ kv.2 ++ " |\n"))
        ++ "\n"
      else "")
  ++ "**Spans:**\n\n"
  ++ showSpan ord t.spans "" (t.spans.length + 1)
  ++ "</details>\n\n"

/-- Trace-details section of `GenerateMarkdown`. -/
def traceDetailsSection (ord : RangeOrd) (ts : List Trace) : String :=
  "\n**Trace Details:**\n\n" ++ String.join (ts.map (traceDetailsBlock ord))

/-- generateMarkdown models the Go function `GenerateMarkdown`.  Because
`sort.Slice` reorders the caller-supplied slices in place, the function
returns, besides the rendered Markdown, the final state of the caller's
trace sequence: traces sorted by duration descending, each trace's spans
sorted by duration descending. -/
def generateMarkdown (ord : RangeOrd) (traces : List Trace) : String × List Trace :=
  let spanMaps := traceSpanMaps traces
  let sorted := sortGo traceLess traces
  let detailed := sorted.map spanSortTrace
  let overview :=
    "**Traces Overview:**\n\n| Trace ID | Trace Name | Duration | Spans |\n|----------|------------|----------|-------|\n"
      ++ String.join (sorted.map overviewRow)
  let detailTable :=
    "\n**Span Details:**\n\n| Trace ID | Span ID | Span Name | Duration | Parent |\n|----------|---------|-----------|----------|--------|\n"
      ++ String.join (detailed.map (spanDetailRows spanMaps))
  (overview ++ detailTable ++ traceDetailsSection ord detailed, detailed)

/-- GenerateMarkdown as claim C3 reads it: identical, except that the
trace-details section walks each trace's spans in their original sequence
order, unaffected by the detail-table's duration sort. -/
def generateMarkdownClaimC3 (ord : RangeOrd) (traces : List Trace) : String :=
  let spanMaps := traceSpanMaps traces
  let sorted := sortGo traceLess traces
  let detailed := sorted.map spanSortTrace
  let overview :=
    "**Traces Overview:**\n\n| Trace ID | Trace Name | Duration | Spans |\n|----------|------------|----------|-------|\n"
      ++ String.join (sorted.map overviewRow)
  let detailTable :=
    "\n**Span Details:**\n\n| Trace ID | Span ID | Span Name | Duration | Parent |\n|----------|---------|-----------|----------|--------|\n"
      ++ String.join (detailed.map (spanDetailRows spanMaps))
  overview ++ detailTable ++ traceDetailsSection ord sorted

lemma flatten_map_ite_eq_flatMap_filter (p : α → Bool) (f : α → List α) (l : List α) :
    (l.map (fun x => if p x then x :: f x else [])).flatten
      = (l.filter p).flatMap (fun x => x :: f x) := by
  induction l with
  | nil => rfl
  | cons x xs ih =>
    by_cases h : p x
    · simp only [List.map_cons, List.flatten_cons, List.filter_cons, h, List.flatMap_cons, ih]
      simp
    · simp only [List.map_cons, List.flatten_cons, List.filter_cons, h, ih]
      simp

/-- C3 (amended): the depth-first hierarchy walk of the expandable
per-trace section runs over the span sequence as mutated in place by the
span-detail table's duration sort, so at each level it visits the
children in duration-descending order — not in the trace's original span
sequence order. -/
theorem showSpanOrder_children_sorted (spans : List Span) (pid : String) (fuel : Nat) :
    showSpanOrder (sortGo spanLess spans) pid (fuel + 1)
      = ((sortGo spanLess spans).filter (fun s => s.parentSpanID == pid)).flatMap
          (fun s => s :: showSpanOrder (sortGo spanLess spans) s.spanID fuel)
    ∧ ((sortGo spanLess spans).filter (fun s => s.parentSpanID == pid)).Pairwise
        (fun a b => spanDuration b ≤ spanDuration a) := by
  constructor
  · conv_lhs => rw [showSpanOrder]
    exact flatten_map_ite_eq_flatMap_filter _ _ _
  · have hsorted := @sortGo_pairwise Span spanLess
      (fun a b c hab hbc => by
        simp only [spanLess, decide_eq_true_eq] at *
        exact lt_trans hbc hab)
      (fun a b hab => by
        simp only [spanLess, decide_eq_true_eq, decide_eq_false_iff_not] at *
        exact lt_asymm hab) spans
    have hfil := List.Pairwise.sublist
      (@List.filter_sublist Span (fun s : Span => s.parentSpanID == pid) (sortGo spanLess spans))
      hsorted
    refine hfil.imp ?_
    intro a b hab
    simp only [spanLess, decide_eq_false_iff_not, not_lt] at hab
    exact hab

/-- Root span of the C3/C7 counterexample trace: duration 100µs. -/
def spanR : Span :=
  ⟨"r", "", "R", 0, 100000, [], []⟩

/-- First child (in sequence order) of the counterexample root: 10µs. -/
def spanA : Span :=
  ⟨"a", "r", "A", 0, 10000, [], []⟩

/-- Second child (in sequence order) of the counterexample root: 50µs. -/
def spanB : Span :=
  ⟨"b", "r", "B", 0, 50000, [], []⟩

/-- Counterexample trace: children appear in sequence order A, B but in
duration order B, A. -/
def traceC3 : Trace :=
  ⟨"trace-c3", [spanR, spanA, spanB], [], []⟩

/-- C3 (counterexample): on `traceC3` the hierarchy section renders the
children in the duration-sorted order B, A, so `GenerateMarkdown`'s
output differs from the output the claim describes (hierarchy walk over
the original span sequence order A, B). -/
theorem generateMarkdown_hierarchy_ne_claimC3 :
    (generateMarkdown idOrd [traceC3]).1 ≠ generateMarkdownClaimC3 idOrd [traceC3] := by
  decide

/-- C7 (amended): `GenerateMarkdown` does mutate its input, but only by
reordering: the final state of the caller's trace sequence is a
permutation of the input in which each trace keeps its id and attribute
maps and its span sequence is a permutation (duration-sorted) of the
original.  (`CompareTraces` and `CompareMultipleTraces` never write
through their input, which the embedding reflects by returning only a
string.) -/
theorem generateMarkdown_state_perm (ord : RangeOrd) (traces : List Trace) :
    (generateMarkdown ord traces).2 ~ traces.map spanSortTrace
    ∧ ∀ t : Trace, (spanSortTrace t).spans ~ t.spans
       ∧ (spanSortTrace t).traceID = t.traceID
       ∧ (spanSortTrace t).attributes = t.attributes
       ∧ (spanSortTrace t).resourceAttrs = t.resourceAttrs := by
  constructor
  · exact (sortGo_perm traceLess traces).map spanSortTrace
  · intro t
    exact ⟨sortGo_perm spanLess t.spans, rfl, rfl, rfl⟩

/-- C7 (counterexample): `GenerateMarkdown` leaves the caller's sequence
changed — on `[traceC3]` the spans of the stored trace are duration-sorted
afterwards, so the input is not unchanged in order. -/
theorem generateMarkdown_mutates_input :
    (generateMarkdown idOrd [traceC3]).2 ≠ [traceC3] := by
  decide

/-- Zero value of `Trace`, used only as the (never reached) default when
looking up a key known to be present. -/
def defaultTrace : Trace :=
  ⟨"", [], [], []⟩

/-- Percentage-change rendering `(%.1f)` of `(diff / base) * 100`, where
`diff` and `base` are durations in nanoseconds (the two `Seconds()`
divisions by 1e9 cancel).  A zero base reproduces Go's float behaviour:
`0/0` renders as `NaN`, `x/0` as `+Inf` or `-Inf`.  Rounding is the exact
rational idealisation described in the file header. -/
def pct1 (diff base : Int) : String :=
  if base = 0 then
    if diff = 0 then "NaN" else if diff > 0 then "+Inf" else "-Inf"
  else
    let neg := if diff = 0 then base < 0 else (decide (diff < 0) != decide (base < 0))
    let tenths := roundHalfEven ((diff.natAbs : Int) * 1000) (base.natAbs : Int)
    (if neg then "-" else "") ++ toString (tenths / 10) ++ "." ++ toString (tenths % 10)

/-- The `spans1Map`/`spans2Map` of `CompareTraces`: spans of a trace
keyed by span name; a later span with the same name overwrites an
earlier one. -/
def spansByName (t : Trace) : List (String × Span) :=
  t.spans.foldl (fun m s => mapInsert m s.name s) []

/-- Names for which the span-comparison table of a matched-trace block
emits a row: the keys of the first trace's by-name span map, in range
order, that are also keys of the second trace's map. -/
def spanComparisonNames (ord : RangeOrd) (t1 t2 : Trace) : List String :=
  ((ord _ (spansByName t1)).map Prod.fst).filter
    (fun n => ((spansByName t2).lookup n).isSome)

/-- Span-comparison rows of a matched-trace block: one row per ranged
entry of the first map whose name also keys the second map, nothing for
the rest (the guard matches `spanComparisonNames`). -/
def spanComparisonRows (ord : RangeOrd) (t1 t2 : Trace) : String :=
  String.join ((ord _ (spansByName t1)).map (fun kv =>
    match (spansByName t2).lookup kv.1 with
    | some span2 =>
      let d1 := spanDuration kv.2
      let d2 := spanDuration span2
      let diff := d2 - d1
      "| " ++ kv.1 ++ " | " ++ formatDuration d1 ++ " | " ++ formatDuration d2
        ++ " | " ++ formatDuration diff ++ " (" ++ pct1 diff d1 ++ "%) |\n"
    | none => ""))

/-- Expandable block of `CompareTraces` for one matched identity:
duration comparison, then the span-comparison table. -/
def matchedTraceBlock (ord : RangeOrd) (t1 t2 : Trace) (name : String) : String :=
  let duration1 := getTraceDuration t1
  let duration2 := getTraceDuration t2
  let durationDiff := duration2 - duration1
  "<details>\n<summary>" ++ name ++ "</summary>\n\n"
  ++ "**Duration Comparison:**\n\n| File | Duration |\n|------|----------|\n"
  ++ "| First | " ++ formatDuration duration1 ++ " |\n"
  ++ "| Second | " ++ formatDuration duration2 ++ " |\n"
  ++ "| Difference | " ++ formatDuration durationDiff ++ " ("
    ++ pct1 durationDiff duration1 ++ "%) |\n\n"
  ++ "**Span Comparison:**\n\n| Span Name | First Duration | Second Duration | Difference |\n|-----------|----------------|-----------------|------------|\n"
  ++ spanComparisonRows ord t1 t2
  ++ "\n</details>\n\n"

/-- compareTraces models the Go function `CompareTraces`: key both trace
sequences by the `"name"` identity, partition the identities into
matching / only-in-first / only-in-second (each sorted), and render the
summary counts, the matched blocks, and the two leftover lists. -/
def compareTraces (ord : RangeOrd) (traces1 traces2 : List Trace) : String :=
  let traces1Map : List (String × Trace) :=
    traces1.foldl (fun m t => mapInsert m (getTraceIdentifier t "name") t) []
  let traces2Map : List (String × Trace) :=
    traces2.foldl (fun m t => mapInsert m (getTraceIdentifier t "name") t) []
  let matchingTraces := sortStrings (((ord _ traces1Map).map Prod.fst).filter
    (fun n => ((traces2Map.lookup n).isSome : Bool)))
  let onlyInFirst := sortStrings (((ord _ traces1Map).map Prod.fst).filter
    (fun n => !(traces2Map.lookup n).isSome))
  let onlyInSecond := sortStrings (((ord _ traces2Map).map Prod.fst).filter
    (fun n => !(traces1Map.lookup n).isSome))
  "### Trace Comparison\n\n**Comparison Summary:**\n\n| Category | Count |\n|----------|-------|\n"
  ++ "| Matching Traces | " ++ toString matchingTraces.length ++ " |\n"
  ++ "| Only in First File | " ++ toString onlyInFirst.length ++ " |\n"
  ++ "| Only in Second File | " ++ toString onlyInSecond.length ++ " |\n\n"
  ++ (if matchingTraces.length > 0 then
        "**Matching Traces:**\n\n"
        ++ String.join (matchingTraces.map (fun name =>
             matchedTraceBlock ord
               ((traces1Map.lookup name).getD defaultTrace)
               ((traces2Map.lookup name).getD defaultTrace) name))
      else "")
  ++ (if onlyInFirst.length > 0 then
        "**Traces Only in First File:**\n\n"
        ++ String.join (onlyInFirst.map (fun name => "- " ++ name ++ "\n")) ++ "\n"
      else "")
  ++ (if onlyInSecond.length > 0 then
        "**Traces Only in Second File:**\n\n"
        ++ String.join (onlyInSecond.map (fun name => "- " ++ name ++ "\n")) ++ "\n"
      else "")

lemma lookup_append_single_isSome (m : List (String × α)) (k n : String) (v : α) :
    ((m ++ [(k, v)]).lookup n).isSome = ((m.lookup n).isSome || (n == k)) := by
  induction m with
  | nil => cases h : n == k <;> simp [List.lookup, h]
  | cons kv rest ih => cases h : n == kv.1 <;> simp [List.lookup, h, ih]

lemma lookup_map_replace_isSome (m : List (String × α)) (k n : String) (v : α) :
    ((m.map (fun kv => if kv.1 == k then (k, v) else kv)).lookup n).isSome
      = (m.lookup n).isSome := by
  induction m with
  | nil => rfl
  | cons kv rest ih =>
    simp only [List.map_cons]
    by_cases h : kv.1 == k
    · rw [if_pos h]
      have hk : kv.1 = k := by simpa using h
      cases hn : n == k with
      | true => simp [List.lookup, hn, hk]
      | false =>
        simp only [List.lookup, hk, hn]
        simpa using ih
    · rw [if_neg h]
      cases hn : n == kv.1 with
      | true => simp [List.lookup, hn]
      | false =>
        simp only [List.lookup, hn]
        simpa using ih

lemma lookup_mapInsert_isSome (m : List (String × α)) (k n : String) (v : α) :
    ((mapInsert m k v).lookup n).isSome = ((n == k) || (m.lookup n).isSome) := by
  unfold mapInsert
  by_cases h : (m.lookup k).isSome
  · rw [if_pos h, lookup_map_replace_isSome]
    by_cases hn : n == k
    · have : n = k := by simpa using hn
      subst this
      simp [h, hn]
    · simp [hn]
  · rw [if_neg h, lookup_append_single_isSome]
    exact Bool.or_comm _ _

lemma lookup_spansByName_isSome (t : Trace) (n : String) :
    ((spansByName t).lookup n).isSome ↔ ∃ s ∈ t.spans, s.name = n := by
  unfold spansByName
  have haux : ∀ (l : List Span) (m : List (String × Span)),
      ((l.foldl (fun m s => mapInsert m s.name s) m).lookup n).isSome
        ↔ (m.lookup n).isSome ∨ ∃ s ∈ l, s.name = n := by
    intro l
    induction l with
    | nil => simp
    | cons s rest ih =>
      intro m
      rw [List.foldl_cons, ih, lookup_mapInsert_isSome]
      simp only [Bool.or_eq_true, beq_iff_eq, List.mem_cons]
      constructor
      · rintro ((h | h) | h)
        · exact Or.inr ⟨s, Or.inl rfl, h.symm⟩
        · exact Or.inl h
        · rcases h with ⟨x, hx, hxn⟩
          exact Or.inr ⟨x, Or.inr hx, hxn⟩
      · rintro (h | ⟨x, hx, hxn⟩)
        · exact Or.inl (Or.inr h)
        · rcases hx with rfl | hx
          · exact Or.inl (Or.inl hxn.symm)
          · exact Or.inr ⟨x, hx, hxn⟩
  rw [haux]
  simp

lemma lookup_isSome_iff_mem_keys (m : List (String × α)) (n : String) :
    (m.lookup n).isSome ↔ n ∈ m.map Prod.fst := by
  induction m with
  | nil => simp [List.lookup]
  | cons kv rest ih =>
    by_cases h : n == kv.1
    · have : n = kv.1 := by simpa using h
      simp [List.lookup, h, this]
    · have hne : ¬n = kv.1 := by simpa using h
      simp [List.lookup, h, hne, ih]

/-- C8: in the Pairwise Comparator's per-identity span-comparison table,
a row is emitted exactly for the span names that occur in both matched
traces; a name occurring in only one of the two traces produces no row
(`spanComparisonRows` renders one row per entry of `spanComparisonNames`
and nothing otherwise).  `ord` is any iteration order the Go map range
may produce. -/
theorem spanComparison_names_iff (ord : RangeOrd)
    (hord : ∀ (α : Type) (l : List α), ord α l ~ l) (t1 t2 : Trace) (n : String) :
    n ∈ spanComparisonNames ord t1 t2
      ↔ (∃ s ∈ t1.spans, s.name = n) ∧ ∃ s ∈ t2.spans, s.name = n := by
  unfold spanComparisonNames
  rw [List.mem_filter]
  have hk1 : n ∈ (ord _ (spansByName t1)).map Prod.fst
      ↔ ((spansByName t1).lookup n).isSome :=
    Iff.trans ((hord _ (spansByName t1)).map Prod.fst).mem_iff
      (lookup_isSome_iff_mem_keys (spansByName t1) n).symm
  constructor
  · rintro ⟨hmem, hp⟩
    have hp2 : ((spansByName t2).lookup n).isSome := by simpa using hp
    exact ⟨(lookup_spansByName_isSome t1 n).mp (hk1.mp hmem),
           (lookup_spansByName_isSome t2 n).mp hp2⟩
  · rintro ⟨h1, h2⟩
    refine ⟨hk1.mpr ((lookup_spansByName_isSome t1 n).mpr h1), ?_⟩
    simpa using (lookup_spansByName_isSome t2 n).mpr h2

/-- First trace of the C8 witness: spans named `s1` and `s2`. -/
def traceW1 : Trace :=
  ⟨"w1", [⟨"x", "", "s1", 0, 10, [], []⟩, ⟨"y", "x", "s2", 0, 5, [], []⟩], [], []⟩

/-- Second trace of the C8 witness: only a span named `s2`. -/
def traceW2 : Trace :=
  ⟨"w2", [⟨"z", "", "s2", 0, 7, [], []⟩], [], []⟩

/-- Witness for C8: `s2` occurs in both traces and gets a row; `s1`
occurs only in the first trace and gets none. -/
theorem spanComparison_names_iff_witness :
    "s2" ∈ spanComparisonNames idOrd traceW1 traceW2
      ∧ ¬"s1" ∈ spanComparisonNames idOrd traceW1 traceW2 :=
  ⟨(spanComparison_names_iff idOrd (fun _ l => List.Perm.refl l) traceW1 traceW2 "s2").mpr
     (by decide),
   fun h =>
     absurd
       ((spanComparison_names_iff idOrd (fun _ l => List.Perm.refl l) traceW1 traceW2 "s1").mp
         h).2
       (by decide)⟩

/-- Identity→trace map of one set in `CompareMultipleTraces`
(`traceMaps[i][identifier] = &set.Traces[j]`, later duplicates
overwriting earlier ones). -/
def buildTraceMap (traces : List Trace) (attr : String) : List (String × Trace) :=
  traces.foldl (fun m tr => mapInsert m (getTraceIdentifier tr attr) tr) []

/-- The `traceMaps` slice of `CompareMultipleTraces`. -/
def traceMapsOf (traceSets : List TraceSet) (attr : String) : List (List (String × Trace)) :=
  traceSets.map (fun set => buildTraceMap set.traces attr)

/-- The sorted union of identities across all sets: `allTraceNames` is
filled by ranging over each map, its keys are then ranged and sorted
(`sort.Strings`). -/
def allKeysSorted (ord : RangeOrd) (maps : List (List (String × Trace))) : List String :=
  sortStrings (ord _ (maps.foldl
    (fun acc tm => (ord _ tm).foldl (fun a kv => setInsert a kv.1) acc) []))

/-- Header of the N-way summary matrix. -/
def cmtHeader (traceSets : List TraceSet) : String :=
  "### Multiple Traces Comparison\n\n**Comparison Summary:**\n\n| Trace Name |"
  ++ String.join (traceSets.map (fun set => " " ++ getFileNameWithoutExt set.name ++ " |"))
  ++ " Duration Diff |\n|------------"
  ++ String.join (traceSets.map (fun _ => "|------------"))
  ++ "|------------|\n"

/-- Presence cells of one summary row (`✓` when the identity is in the
set's map, `✗` otherwise). -/
def presenceCells (maps : List (List (String × Trace))) (name : String) : String :=
  String.join (maps.map (fun tm =>
    if (tm.lookup name).isSome then " ✓ |" else " ✗ |"))

/-- Durations collected for one summary row: the trace duration where the
identity exists, and 0 where it does not. -/
def durationsFor (maps : List (List (String × Trace))) (name : String) : List Int :=
  maps.map (fun tm =>
    match tm.lookup name with
    | some tr => getTraceDuration tr
    | none => 0)

/-- The max-diff / direction computation of `CompareMultipleTraces`
(lines shared verbatim between the summary rows and the span rows):
compare the first duration with every LATER duration that is positive,
tracking the maximum absolute difference and whether the first duration
exceeds any of them. -/
def maxDiffSlower (durations : List Int) : Int × Bool :=
  match durations with
  | [] => (0, false)
  | d0 :: rest =>
    rest.foldl
      (fun acc di =>
        if 0 < di then
          (let diff := if di - d0 < 0 then -(di - d0) else di - d0
           if acc.1 < diff then diff else acc.1,
           acc.2 || decide (di < d0))
        else acc)
      (0, false)

/-- Duration-diff cell: an indicator (🟢 when the first set is slower
than some other, else 🔴) and the formatted max difference when it is
positive, a dash otherwise (also when there are fewer than two columns). -/
def diffCell (durations : List Int) : String :=
  if durations.length > 1 then
    let md := maxDiffSlower durations
    if 0 < md.1 then
      " " ++ (if md.2 then "🟢" else "🔴") ++ " " ++ formatDuration md.1 ++ " |\n"
    else " - |\n"
  else " - |\n"

/-- Summary-matrix rows of `CompareMultipleTraces`. -/
def summaryRows (maps : List (List (String × Trace))) (names : List String) : String :=
  String.join (names.map (fun name =>
    "| " ++ name ++ " |" ++ presenceCells maps name ++ diffCell (durationsFor maps name)))

/-- Sorted union of trace-level and resource-level attribute keys of the
matched traces (detailed block); each map is ranged (`ord`), collected
into a set, whose keys are ranged and sorted. -/
def attrKeysSorted (ord : RangeOrd) (maps : List (List (String × Trace)))
    (name : String) : List String :=
  sortStrings (ord _ (maps.foldl
    (fun acc tm =>
      let trace := (tm.lookup name).getD defaultTrace
      (ord _ trace.resourceAttrs).foldl (fun a kv => setInsert a kv.1)
        ((ord _ trace.attributes).foldl (fun a kv => setInsert a kv.1) acc)) []))

/-- Attribute-comparison row of a detailed block: per set the
trace-attribute value, else the resource-attribute value, else blank. -/
def attrRow (maps : List (List (String × Trace))) (name key : String) : String :=
  "| " ++ key ++ " |"
  ++ String.join (maps.map (fun tm =>
       let trace := (tm.lookup name).getD defaultTrace
       let value :=
         match trace.attributes.lookup key with
         | some v => v
         | none =>
           match trace.resourceAttrs.lookup key with
           | some v => v
           | none => ""
       " " ++ value ++ " |"))
  ++ "\n"

/-- Sorted union of span names across the matched traces of a detailed
block (spans are a slice, iterated in order; the collected set's keys are
ranged and sorted). -/
def spanNamesSorted (ord : RangeOrd) (maps : List (List (String × Trace)))
    (name : String) : List String :=
  sortStrings (ord _ (maps.foldl
    (fun acc tm =>
      let trace := (tm.lookup name).getD defaultTrace
      trace.spans.foldl (fun a span => setInsert a span.name) acc) []))

/-- Per-set duration cells of one span row, together with the collected
duration list (0 and a miss marker where the span name is absent). -/
def spanDurationsCells (maps : List (List (String × Trace)))
    (name spanName : String) : String × List Int :=
  maps.foldl
    (fun (acc : String × List Int) tm =>
      let trace := (tm.lookup name).getD defaultTrace
      match trace.spans.find? (fun span => span.name == spanName) with
      | some span =>
        (acc.1 ++ " " ++ formatDuration (spanDuration span) ++ " |",
         acc.2 ++ [spanDuration span])
      | none => (acc.1 ++ " ✗ |", acc.2 ++ [0]))
    ("", [])

/-- Companion `Attributes` row of one span row: per set the first span
with the given name contributes its `key: value` pairs, sorted and joined
with a line-break marker. -/
def spanAttrsRow (ord : RangeOrd) (maps : List (List (String × Trace)))
    (name spanName : String) : String :=
  "| Attributes |"
  ++ String.join (maps.map (fun tm =>
       let trace := (tm.lookup name).getD defaultTrace
       let attrs :=
         match trace.spans.find? (fun span => span.name == spanName) with
         | some span => (ord _ span.attributes).map (fun kv => kv.1 ++ ": " ++ kv.2)
         | none => []
       " " ++ String.intercalate "<br> " (sortStrings attrs) ++ " |"))
  ++ "\n"

/-- One span row of a detailed block: name cell, per-set duration cells,
duration-diff cell, and the companion attributes row. -/
def spanRow (ord : RangeOrd) (maps : List (List (String × Trace)))
    (name spanName : String) : String :=
  let cells := spanDurationsCells maps name spanName
  "| " ++ spanName ++ " |" ++ cells.1 ++ diffCell cells.2
    ++ spanAttrsRow ord maps name spanName

/-- Detailed block of `CompareMultipleTraces` for one identity present in
every set. -/
def detailBlock (ord : RangeOrd) (traceSets : List TraceSet)
    (maps : List (List (String × Trace))) (name : String) : String :=
  "<details>\n<summary>" ++ name ++ "</summary>\n\n"
  ++ "**Trace Attributes:**\n\n| Attribute |"
  ++ String.join (traceSets.map (fun set => " " ++ getFileNameWithoutExt set.name ++ " |"))
  ++ "\n|-----------"
  ++ String.join (traceSets.map (fun _ => "|-----------"))
  ++ "|\n"
  ++ String.join ((attrKeysSorted ord maps name).map (attrRow maps name))
  ++ "\n"
  ++ "**Span Comparison:**\n\n| Span Name |"
  ++ String.join (traceSets.map (fun set => " " ++ getFileNameWithoutExt set.name ++ " |"))
  ++ " Duration Diff |\n|-----------"
  ++ String.join (traceSets.map (fun _ => "|-----------"))
  ++ "|------------|\n"
  ++ String.join ((spanNamesSorted ord maps name).map (spanRow ord maps name))
  ++ "\n</details>\n\n"

/-- compareMultipleTraces models the Go function `CompareMultipleTraces`:
the summary matrix over the sorted union of identities, then a detailed
block for every identity present in every set. -/
def compareMultipleTraces (ord : RangeOrd) (traceSets : List TraceSet)
    (attr : String) : String :=
  let maps := traceMapsOf traceSets attr
  let traceNames := allKeysSorted ord maps
  cmtHeader traceSets
  ++ summaryRows maps traceNames
  ++ "\n"
  ++ "**Detailed Comparison:**\n\n"
  ++ String.join (traceNames.map (fun name =>
       if maps.all (fun tm => (tm.lookup name).isSome) then
         detailBlock ord traceSets maps name
       else ""))

/-- Summary duration diff as claim C5 states it: the maximum absolute
difference between the first set's duration and EVERY other set's
duration, absent sets contributing a zero duration. -/
def specC5MaxDiff : List Int → Int
  | [] => 0
  | d0 :: rest => rest.foldl (fun m di => max m |di - d0|) 0

/-- First C5 counterexample set: contains the identity `SA` with
duration 100µs. -/
def setX : TraceSet :=
  ⟨"x.json", [⟨"tx", [⟨"sx", "", "SA", 0, 100000, [], []⟩], [], []⟩]⟩

/-- Second C5 counterexample set: does not contain the identity `SA`. -/
def setY : TraceSet :=
  ⟨"y.json", []⟩

/-- Third C5 counterexample set: contains the identity `SA`, also with
duration 100µs. -/
def setZ : TraceSet :=
  ⟨"z.json", [⟨"tz", [⟨"sz", "", "SA", 0, 100000, [], []⟩], [], []⟩]⟩

/-- C5 (counterexample): for identity `SA` over the three sets the
collected durations are `[100000, 0, 100000]`; the code's diff cell is
the dash `" - |\n"` (the absent second set is skipped by the
`durations[i] > 0` guard, so the running maximum stays 0), while the
claim's formula — absent sets contributing zero — yields 100000 and
would render a nonzero cell. -/
theorem diffCell_ne_specC5 :
    durationsFor (traceMapsOf [setX, setY, setZ] "name") "SA" = [100000, 0, 100000]
    ∧ diffCell (durationsFor (traceMapsOf [setX, setY, setZ] "name") "SA") = " - |\n"
    ∧ specC5MaxDiff (durationsFor (traceMapsOf [setX, setY, setZ] "name") "SA") = 100000 := by
  refine ⟨by decide, by decide, by decide⟩

/-- C5 (amended): the duration-diff value of a summary row is the
maximum of `|dᵢ - d₀|` over the LATER durations `dᵢ` that are positive;
sets in which the identity is absent (recorded duration 0) and
zero-duration traces are skipped, not compared as zero.  (Only absence
in the first set contributes a zero, as the baseline `d₀`.) -/
theorem maxDiffSlower_fst_spec (d0 : Int) (rest : List Int) :
    (maxDiffSlower (d0 :: rest)).1
      = (rest.filter (fun di => decide (0 < di))).foldl (fun m di => max m |di - d0|) 0 := by
  have habs : ∀ di : Int, (if di - d0 < 0 then -(di - d0) else di - d0) = |di - d0| := by
    intro di
    by_cases h : di - d0 < 0
    · rw [if_pos h, abs_of_neg h]
    · rw [if_neg h, abs_of_nonneg (not_lt.mp h)]
  have haux : ∀ (rest : List Int) (a : Int) (b : Bool),
      (rest.foldl
        (fun acc di =>
          if 0 < di then
            (let diff := if di - d0 < 0 then -(di - d0) else di - d0
             if acc.1 < diff then diff else acc.1,
             acc.2 || decide (di < d0))
          else acc)
        (a, b)).1
      = (rest.filter (fun di => decide (0 < di))).foldl (fun m di => max m |di - d0|) a := by
    intro rest
    induction rest with
    | nil => intro a b; rfl
    | cons di rest ih =>
      intro a b
      by_cases h : 0 < di
      · simp only [List.foldl_cons, List.filter_cons, decide_eq_true_eq, if_pos h]
        rw [ih]
        congr 1
        rw [habs di]
        by_cases hm : a < |di - d0|
        · rw [if_pos hm, max_eq_right (le_of_lt hm)]
        · rw [if_neg hm, max_eq_left (not_lt.mp hm)]
      · simp only [List.foldl_cons, List.filter_cons, decide_eq_true_eq, if_neg h]
        exact ih a b
  exact haux rest 0 false

lemma mem_setInsert (m : List String) (k y : String) :
    y ∈ setInsert m k ↔ y ∈ m ∨ y = k := by
  unfold setInsert
  by_cases h : k ∈ m
  · rw [if_pos h]
    constructor
    · exact Or.inl
    · rintro (hy | rfl)
      · exact hy
      · exact h
  · rw [if_neg h]
    simp

lemma nodup_setInsert (m : List String) (k : String) (h : m.Nodup) :
    (setInsert m k).Nodup := by
  unfold setInsert
  by_cases hk : k ∈ m
  · rw [if_pos hk]
    exact h
  · rw [if_neg hk]
    refine List.Nodup.append h (List.nodup_singleton k) ?_
    intro a ha hb
    rw [List.mem_singleton] at hb
    subst hb
    exact hk ha

lemma mem_foldl_of_step {γ : Type} (F : List String → γ → List String)
    (K : γ → String → Prop)
    (hF : ∀ acc x y, y ∈ F acc x ↔ y ∈ acc ∨ K x y) :
    ∀ (l : List γ) (acc : List String) (y : String),
      y ∈ l.foldl F acc ↔ y ∈ acc ∨ ∃ x ∈ l, K x y := by
  intro l
  induction l with
  | nil => simp
  | cons x xs ih =>
    intro acc y
    rw [List.foldl_cons, ih, hF]
    constructor
    · rintro ((h | h) | ⟨z, hz, hK⟩)
      · exact Or.inl h
      · exact Or.inr ⟨x, List.mem_cons_self x xs, h⟩
      · exact Or.inr ⟨z, List.mem_cons_of_mem x hz, hK⟩
    · rintro (h | ⟨z, hz, hK⟩)
      · exact Or.inl (Or.inl h)
      · rcases List.mem_cons.mp hz with rfl | hz
        · exact Or.inl (Or.inr hK)
        · exact Or.inr ⟨z, hz, hK⟩

lemma nodup_foldl_of_step {γ : Type} (F : List String → γ → List String)
    (hnF : ∀ acc x, acc.Nodup → (F acc x).Nodup) :
    ∀ (l : List γ) (acc : List String), acc.Nodup → (l.foldl F acc).Nodup := by
  intro l
  induction l with
  | nil => intro acc h; exact h
  | cons x xs ih =>
    intro acc h
    exact ih _ (hnF acc x h)

lemma mem_foldl_setInsert_fst {β : Type} (ks : List (String × β)) (acc : List String)
    (y : String) :
    y ∈ ks.foldl (fun a kv => setInsert a kv.1) acc ↔ y ∈ acc ∨ y ∈ ks.map Prod.fst := by
  rw [mem_foldl_of_step (fun a kv => setInsert a kv.1) (fun kv y => y = kv.1)
      (fun acc x y => mem_setInsert acc x.1 y) ks acc y]
  constructor
  · rintro (h | ⟨kv, hkv, rfl⟩)
    · exact Or.inl h
    · exact Or.inr (List.mem_map.mpr ⟨kv, hkv, rfl⟩)
  · rintro (h | h)
    · exact Or.inl h
    · rcases List.mem_map.mp h with ⟨kv, hkv, rfl⟩
      exact Or.inr ⟨kv, hkv, rfl⟩

lemma nodup_foldl_setInsert_fst {β : Type} (ks : List (String × β)) (acc : List String)
    (h : acc.Nodup) :
    (ks.foldl (fun a kv => setInsert a kv.1) acc).Nodup :=
  nodup_foldl_of_step (fun a kv => setInsert a kv.1)
    (fun acc x h => nodup_setInsert acc x.1 h) ks acc h

/-- Hypothesis bundle: `ord` is a possible map-iteration order, i.e. it
permutes every list. -/
def IsRangeOrd (ord : RangeOrd) : Prop :=
  ∀ (α : Type) (l : List α), ord α l ~ l

lemma allKeysSorted_inv {ord ord' : RangeOrd}
    (hord : IsRangeOrd ord) (hord' : IsRangeOrd ord')
    (maps : List (List (String × Trace))) :
    allKeysSorted ord maps = allKeysSorted ord' maps := by
  unfold allKeysSorted
  have hstep : ∀ (o : RangeOrd), IsRangeOrd o →
      ∀ (acc : List String) (tm : List (String × Trace)) (y : String),
        y ∈ (o _ tm).foldl (fun a kv => setInsert a kv.1) acc
          ↔ y ∈ acc ∨ y ∈ tm.map Prod.fst := by
    intro o ho acc tm y
    rw [mem_foldl_setInsert_fst]
    exact or_congr Iff.rfl ((ho _ tm).map Prod.fst).mem_iff
  have hmem : ∀ (o : RangeOrd), IsRangeOrd o → ∀ (y : String),
      y ∈ maps.foldl (fun acc tm => (o _ tm).foldl (fun a kv => setInsert a kv.1) acc) []
        ↔ ∃ tm ∈ maps, y ∈ tm.map Prod.fst := by
    intro o ho y
    rw [mem_foldl_of_step _ (fun tm y => y ∈ tm.map Prod.fst) (hstep o ho) maps [] y]
    simp
  have hnd : ∀ (o : RangeOrd),
      (maps.foldl (fun acc tm => (o _ tm).foldl (fun a kv => setInsert a kv.1) acc) []).Nodup := by
    intro o
    exact nodup_foldl_of_step _ (fun acc tm h => nodup_foldl_setInsert_fst (o _ tm) acc h)
      maps [] (List.nodup_nil)
  have hperm :
      maps.foldl (fun acc tm => (ord _ tm).foldl (fun a kv => setInsert a kv.1) acc) []
        ~ maps.foldl (fun acc tm => (ord' _ tm).foldl (fun a kv => setInsert a kv.1) acc) [] := by
    refine (List.perm_ext_iff_of_nodup (hnd ord) (hnd ord')).mpr ?_
    intro y
    rw [hmem ord hord y, hmem ord' hord' y]
  calc sortStrings (ord _ (maps.foldl
          (fun acc tm => (ord _ tm).foldl (fun a kv => setInsert a kv.1) acc) []))
      = sortStrings (maps.foldl
          (fun acc tm => (ord _ tm).foldl (fun a kv => setInsert a kv.1) acc) []) :=
        sortStrings_congr_perm (hord _ _)
    _ = sortStrings (maps.foldl
          (fun acc tm => (ord' _ tm).foldl (fun a kv => setInsert a kv.1) acc) []) :=
        sortStrings_congr_perm hperm
    _ = sortStrings (ord' _ (maps.foldl
          (fun acc tm => (ord' _ tm).foldl (fun a kv => setInsert a kv.1) acc) [])) :=
        (sortStrings_congr_perm (hord' _ _)).symm

lemma attrKeysSorted_inv {ord ord' : RangeOrd}
    (hord : IsRangeOrd ord) (hord' : IsRangeOrd ord')
    (maps : List (List (String × Trace))) (name : String) :
    attrKeysSorted ord maps name = attrKeysSorted ord' maps name := by
  unfold attrKeysSorted
  have hstep : ∀ (o : RangeOrd), IsRangeOrd o →
      ∀ (acc : List String) (tm : List (String × Trace)) (y : String),
        y ∈ (o _ ((tm.lookup name).getD defaultTrace).resourceAttrs).foldl
              (fun a kv => setInsert a kv.1)
              ((o _ ((tm.lookup name).getD defaultTrace).attributes).foldl
                (fun a kv => setInsert a kv.1) acc)
          ↔ y ∈ acc ∨ (y ∈ ((tm.lookup name).getD defaultTrace).attributes.map Prod.fst
              ∨ y ∈ ((tm.lookup name).getD defaultTrace).resourceAttrs.map Prod.fst) := by
    intro o ho acc tm y
    rw [mem_foldl_setInsert_fst, mem_foldl_setInsert_fst]
    rw [or_assoc]
    exact or_congr Iff.rfl
      (or_congr ((ho _ _).map Prod.fst).mem_iff ((ho _ _).map Prod.fst).mem_iff)
  have hmem : ∀ (o : RangeOrd), IsRangeOrd o → ∀ (y : String),
      y ∈ maps.foldl
        (fun acc tm =>
          (o _ ((tm.lookup name).getD defaultTrace).resourceAttrs).foldl
            (fun a kv => setInsert a kv.1)
            ((o _ ((tm.lookup name).getD defaultTrace).attributes).foldl
              (fun a kv => setInsert a kv.1) acc)) []
        ↔ ∃ tm ∈ maps, (y ∈ ((tm.lookup name).getD defaultTrace).attributes.map Prod.fst
            ∨ y ∈ ((tm.lookup name).getD defaultTrace).resourceAttrs.map Prod.fst) := by
    intro o ho y
    rw [mem_foldl_of_step _
      (fun tm y => y ∈ ((tm.lookup name).getD defaultTrace).attributes.map Prod.fst
        ∨ y ∈ ((tm.lookup name).getD defaultTrace).resourceAttrs.map Prod.fst)
      (hstep o ho) maps [] y]
    simp
  have hnd : ∀ (o : RangeOrd),
      (maps.foldl
        (fun acc tm =>
          (o _ ((tm.lookup name).getD defaultTrace).resourceAttrs).foldl
            (fun a kv => setInsert a kv.1)
            ((o _ ((tm.lookup name).getD defaultTrace).attributes).foldl
              (fun a kv => setInsert a kv.1) acc)) []).Nodup := by
    intro o
    refine nodup_foldl_of_step _ ?_ maps [] List.nodup_nil
    intro acc tm h
    exact nodup_foldl_setInsert_fst _ _ (nodup_foldl_setInsert_fst _ _ h)
  have hperm := (List.perm_ext_iff_of_nodup (hnd ord) (hnd ord')).mpr
    (fun y => by rw [hmem ord hord y, hmem ord' hord' y])
  calc sortStrings (ord _ _) = sortStrings _ := sortStrings_congr_perm (hord _ _)
    _ = sortStrings _ := sortStrings_congr_perm hperm
    _ = sortStrings (ord' _ _) := (sortStrings_congr_perm (hord' _ _)).symm

lemma spanNamesSorted_inv {ord ord' : RangeOrd}
    (hord : IsRangeOrd ord) (hord' : IsRangeOrd ord')
    (maps : List (List (String × Trace))) (name : String) :
    spanNamesSorted ord maps name = spanNamesSorted ord' maps name := by
  unfold spanNamesSorted
  calc sortStrings (ord _ _) = sortStrings _ := sortStrings_congr_perm (hord _ _)
    _ = sortStrings (ord' _ _) := (sortStrings_congr_perm (hord' _ _)).symm

lemma spanAttrsRow_inv {ord ord' : RangeOrd}
    (hord : IsRangeOrd ord) (hord' : IsRangeOrd ord')
    (maps : List (List (String × Trace))) (name spanName : String) :
    spanAttrsRow ord maps name spanName = spanAttrsRow ord' maps name spanName := by
  unfold spanAttrsRow
  congr 1
  congr 1
  refine congrArg String.join (List.map_congr_left ?_)
  intro tm _
  cases hf : ((tm.lookup name).getD defaultTrace).spans.find?
      (fun span => span.name == spanName) with
  | none => simp only [hf]
  | some span =>
    simp only [hf]
    have hs : sortStrings ((ord _ span.attributes).map (fun kv => kv.1 ++ ": " ++ kv.2))
        = sortStrings ((ord' _ span.attributes).map (fun kv => kv.1 ++ ": " ++ kv.2)) := by
      calc sortStrings ((ord _ span.attributes).map (fun kv => kv.1 ++ ": " ++ kv.2))
          = sortStrings (span.attributes.map (fun kv => kv.1 ++ ": " ++ kv.2)) :=
            sortStrings_congr_perm ((hord _ _).map _)
        _ = sortStrings ((ord' _ span.attributes).map (fun kv => kv.1 ++ ": " ++ kv.2)) :=
            (sortStrings_congr_perm ((hord' _ _).map _)).symm
    rw [hs]

lemma spanRow_inv {ord ord' : RangeOrd}
    (hord : IsRangeOrd ord) (hord' : IsRangeOrd ord')
    (maps : List (List (String × Trace))) (name spanName : String) :
    spanRow ord maps name spanName = spanRow ord' maps name spanName := by
  unfold spanRow
  rw [spanAttrsRow_inv hord hord']

lemma detailBlock_inv {ord ord' : RangeOrd}
    (hord : IsRangeOrd ord) (hord' : IsRangeOrd ord')
    (traceSets : List TraceSet) (maps : List (List (String × Trace))) (name : String) :
    detailBlock ord traceSets maps name = detailBlock ord' traceSets maps name := by
  unfold detailBlock
  rw [attrKeysSorted_inv hord hord', spanNamesSorted_inv hord hord']
  have h1 : (spanNamesSorted ord' maps name).map (spanRow ord maps name)
      = (spanNamesSorted ord' maps name).map (spanRow ord' maps name) :=
    List.map_congr_left (fun s _ => spanRow_inv hord hord' maps name s)
  rw [h1]

/-- C6 (amended): `CompareMultipleTraces` is byte-identical across runs
regardless of the map-iteration orders the two runs see — every one of
its map ranges is followed by a sort before it reaches the output.  (For
`GenerateMarkdown` and `CompareTraces` the output is a pure function of
the decoded input and the iteration orders, but it genuinely depends on
the orders, so two runs agree only when the orders coincide — see the
counterexample.) -/
theorem compareMultipleTraces_deterministic (ord ord' : RangeOrd)
    (hord : IsRangeOrd ord) (hord' : IsRangeOrd ord')
    (traceSets : List TraceSet) (attr : String) :
    compareMultipleTraces ord traceSets attr = compareMultipleTraces ord' traceSets attr := by
  unfold compareMultipleTraces
  dsimp only
  rw [allKeysSorted_inv hord hord']
  have h2 : ∀ nm : String,
      (if (traceMapsOf traceSets attr).all (fun tm => (tm.lookup nm).isSome) then
         detailBlock ord traceSets (traceMapsOf traceSets attr) nm
       else "")
      = (if (traceMapsOf traceSets attr).all (fun tm => (tm.lookup nm).isSome) then
           detailBlock ord' traceSets (traceMapsOf traceSets attr) nm
         else "") := by
    intro nm
    by_cases h : (traceMapsOf traceSets attr).all (fun tm => (tm.lookup nm).isSome)
    · rw [if_pos h, if_pos h, detailBlock_inv hord hord']
    · rw [if_neg h, if_neg h]
  rw [List.map_congr_left (fun nm _ => h2 nm)]

/-- Witness sets for the C6 theorem. -/
def setsW : List TraceSet :=
  [setX, setZ]

/-- Witness for C6: the theorem applied at concrete input with the
reversing and the identity iteration orders. -/
theorem compareMultipleTraces_deterministic_witness :
    compareMultipleTraces revOrd setsW "name" = compareMultipleTraces idOrd setsW "name" :=
  compareMultipleTraces_deterministic revOrd idOrd
    (fun _ l => List.reverse_perm l) (fun _ l => List.Perm.refl l) setsW "name"

/-- Counterexample trace for C6: two trace-level attributes, whose
rendering order in the trace-details attribute table follows the map
iteration order. -/
def traceC6 : Trace :=
  ⟨"trace-c6", [], [("k1", "v1"), ("k2", "v2")], []⟩

/-- C6 (counterexample): two runs of `GenerateMarkdown` on the same
decoded input that see different (both legitimate) map-iteration orders
produce different bytes, so re-running a reporter is not guaranteed to be
byte-identical. -/
theorem generateMarkdown_order_sensitive :
    (generateMarkdown idOrd [traceC6]).1 ≠ (generateMarkdown revOrd [traceC6]).1 := by
  decide

/-- Json models a decoded JSON document.  A payload is well-formed JSON
exactly when it denotes such a value; the textual tokenizer of
`encoding/json` is not re-modelled.  Numeric literals are kept as their
lexeme — no field of the Trace schema accepts a number. -/
inductive Json where
  | null : Json
  | bool (b : Bool) : Json
  | num (lit : String) : Json
  | str (s : String) : Json
  | arr (elems : List Json) : Json
  | obj (fields : List (String × Json)) : Json

/-- Number of days in a month, accounting for leap years. -/
def daysInMonth (y m : Nat) : Nat :=
  if m = 2 then
    if (y % 4 = 0 ∧ y % 100 ≠ 0) ∨ y % 400 = 0 then 29 else 28
  else if m = 4 ∨ m = 6 ∨ m = 9 ∨ m = 11 then 30
  else 31

/-- Days from the Unix epoch (1970-01-01) to `y-m-d` in the proleptic
Gregorian calendar (civil-from-days construction, computed in `Nat` with
a 400-year shift to stay nonnegative, then recentered). -/
def daysFromCivil (y m d : Nat) : Int :=
  let yy : Nat := y + 400 - (if m ≤ 2 then 1 else 0)
  let era : Nat := yy / 400
  let yoe : Nat := yy % 400
  let doy : Nat := (153 * (if m > 2 then m - 3 else m + 9) + 2) / 5 + (d - 1)
  let doe : Nat := yoe * 365 + yoe / 4 + doy - yoe / 100
  (era * 146097 + doe : Int) - 865565

/-- Read exactly `n` decimal digits. -/
def readDigits : Nat → List Char → Option (Nat × List Char)
  | 0, cs => some (0, cs)
  | n + 1, c :: cs =>
    if c.isDigit then
      match readDigits n cs with
      | some (v, rest) => some ((c.toNat - 48) * 10 ^ n + v, rest)
      | none => none
    else none
  | _ + 1, [] => none

/-- Consume one expected character. -/
def expectChar (c : Char) : List Char → Option (List Char)
  | c2 :: cs => if c2 = c then some cs else none
  | [] => none

/-- Optional fractional seconds: a dot followed by at least one digit;
the first nine digits give nanoseconds, further digits are ignored. -/
def parseFrac : List Char → Option (Nat × List Char)
  | '.' :: cs =>
    let ds := cs.takeWhile Char.isDigit
    if ds.length = 0 then none
    else
      let d9 := ds.take 9
      let v := d9.foldl (fun acc c => acc * 10 + (c.toNat - 48)) 0
      some (v * 10 ^ (9 - d9.length), cs.drop ds.length)
  | cs => some (0, cs)

/-- Time-zone suffix: `Z` for UTC or a numeric `±hh:mm` offset; returns
the offset in seconds east of UTC. -/
def parseOffset : List Char → Option (Int × List Char)
  | 'Z' :: cs => some (0, cs)
  | c :: cs =>
    if c = '+' ∨ c = '-' then
      match readDigits 2 cs with
      | some (oh, cs2) =>
        match expectChar ':' cs2 with
        | some cs3 =>
          match readDigits 2 cs3 with
          | some (om, cs4) =>
            if oh ≤ 23 ∧ om ≤ 59 then
              some ((if c = '-' then -((oh * 3600 + om * 60 : Nat) : Int)
                     else ((oh * 3600 + om * 60 : Nat) : Int)), cs4)
            else none
          | none => none
        | none => none
      | none => none
    else none
  | [] => none

/-- parseRFC3339 models the RFC 3339 timestamp parsing that
`time.Time.UnmarshalJSON` performs on the quoted string: strict
`YYYY-MM-DDTHH:MM:SS[.fff…](Z|±hh:mm)` with component range checks, and
returns nanoseconds since the Unix epoch. -/
def parseRFC3339 (s : String) : Option Int :=
  match readDigits 4 s.toList with
  | none => none
  | some (y, cs) =>
  match expectChar '-' cs with
  | none => none
  | some cs =>
  match readDigits 2 cs with
  | none => none
  | some (mo, cs) =>
  match expectChar '-' cs with
  | none => none
  | some cs =>
  match readDigits 2 cs with
  | none => none
  | some (d, cs) =>
  match expectChar 'T' cs with
  | none => none
  | some cs =>
  match readDigits 2 cs with
  | none => none
  | some (h, cs) =>
  match expectChar ':' cs with
  | none => none
  | some cs =>
  match readDigits 2 cs with
  | none => none
  | some (mi, cs) =>
  match expectChar ':' cs with
  | none => none
  | some cs =>
  match readDigits 2 cs with
  | none => none
  | some (sec, cs) =>
  match parseFrac cs with
  | none => none
  | some (fracNs, cs) =>
  match parseOffset cs with
  | none => none
  | some (offSec, cs) =>
  if cs = [] ∧ 1 ≤ mo ∧ mo ≤ 12 ∧ 1 ≤ d ∧ d ≤ daysInMonth y mo
      ∧ h ≤ 23 ∧ mi ≤ 59 ∧ sec ≤ 59 then
    some ((daysFromCivil y mo d * 86400
            + ((h * 3600 + mi * 60 + sec : Nat) : Int) - offSec) * 1000000000
          + (fracNs : Int))
  else none

/-- Nanoseconds of the zero `time.Time` (0001-01-01T00:00:00Z). -/
def zeroTimeNs : Int :=
  -62135596800000000000

/-- Zero value of `Event` as produced by `json.Unmarshal`. -/
def zeroEvent : Event :=
  ⟨zeroTimeNs, "", []⟩

/-- Zero value of `Span` as produced by `json.Unmarshal`. -/
def zeroSpan : Span :=
  ⟨"", "", "", zeroTimeNs, zeroTimeNs, [], []⟩

/-- Zero value of `Trace` as produced by `json.Unmarshal`. -/
def zeroTrace : Trace :=
  ⟨"", [], [], []⟩

/-- Decode a JSON object into `map[string]string`: every value must be a
string (or `null`, which stores the zero string); later duplicate keys
overwrite earlier ones. -/
def decodeAttrsMap (fs : List (String × Json)) : Option (List (String × String)) :=
  fs.foldlM
    (fun m kv =>
      match kv.2 with
      | Json.str v => some (mapInsert m kv.1 v)
      | Json.null => some (mapInsert m kv.1 "")
      | _ => none)
    []

/-- Decode one `Event`: object keys are matched case-insensitively to the
json tags (as `encoding/json` does), unknown keys are ignored, `null`
field values are no-ops, and a non-`null` time must be a quoted RFC 3339
string. -/
def decodeEvent : Json → Option Event
  | Json.null => some zeroEvent
  | Json.obj fs =>
    fs.foldlM
      (fun ev kv =>
        let key := kv.1.toLower
        if key == "time" then
          match kv.2 with
          | Json.str s =>
            match parseRFC3339 s with
            | some t => some { ev with time := t }
            | none => none
          | Json.null => some ev
          | _ => none
        else if key == "name" then
          match kv.2 with
          | Json.str s => some { ev with name := s }
          | Json.null => some ev
          | _ => none
        else if key == "attributes" then
          match kv.2 with
          | Json.obj fs2 =>
            match decodeAttrsMap fs2 with
            | some m => some { ev with attributes := m }
            | none => none
          | Json.null => some ev
          | _ => none
        else some ev)
      zeroEvent
  | _ => none

/-- Decode one `Span` (same conventions as `decodeEvent`). -/
def decodeSpan : Json → Option Span
  | Json.null => some zeroSpan
  | Json.obj fs =>
    fs.foldlM
      (fun sp kv =>
        let key := kv.1.toLower
        if key == "span_id" then
          match kv.2 with
          | Json.str s => some { sp with spanID := s }
          | Json.null => some sp
          | _ => none
        else if key == "parent_span_id" then
          match kv.2 with
          | Json.str s => some { sp with parentSpanID := s }
          | Json.null => some sp
          | _ => none
        else if key == "name" then
          match kv.2 with
          | Json.str s => some { sp with name := s }
          | Json.null => some sp
          | _ => none
        else if key == "start_time" then
          match kv.2 with
          | Json.str s =>
            match parseRFC3339 s with
            | some t => some { sp with startTime := t }
            | none => none
          | Json.null => some sp
          | _ => none
        else if key == "end_time" then
          match kv.2 with
          | Json.str s =>
            match parseRFC3339 s with
            | some t => some { sp with endTime := t }
            | none => none
          | Json.null => some sp
          | _ => none
        else if key == "attributes" then
          match kv.2 with
          | Json.obj fs2 =>
            match decodeAttrsMap fs2 with
            | some m => some { sp with attributes := m }
            | none => none
          | Json.null => some sp
          | _ => none
        else if key == "events" then
          match kv.2 with
          | Json.arr es =>
            match es.mapM decodeEvent with
            | some evs => some { sp with events := evs }
            | none => none
          | Json.null => some sp
          | _ => none
        else some sp)
      zeroSpan
  | _ => none

/-- Decode one `Trace` (same conventions as `decodeEvent`). -/
def decodeTrace : Json → Option Trace
  | Json.null => some zeroTrace
  | Json.obj fs =>
    fs.foldlM
      (fun tr kv =>
        let key := kv.1.toLower
        if key == "trace_id" then
          match kv.2 with
          | Json.str s => some { tr with traceID := s }
          | Json.null => some tr
          | _ => none
        else if key == "spans" then
          match kv.2 with
          | Json.arr es =>
            match es.mapM decodeSpan with
            | some sps => some { tr with spans := sps }
            | none => none
          | Json.null => some tr
          | _ => none
        else if key == "attributes" then
          match kv.2 with
          | Json.obj fs2 =>
            match decodeAttrsMap fs2 with
            | some m => some { tr with attributes := m }
            | none => none
          | Json.null => some tr
          | _ => none
        else if key == "resource_attributes" then
          match kv.2 with
          | Json.obj fs2 =>
            match decodeAttrsMap fs2 with
            | some m => some { tr with resourceAttrs := m }
            | none => none
          | Json.null => some tr
          | _ => none
        else some tr)
      zeroTrace
  | _ => none

/-- Decode the payload into `[]Trace`: the top level must be an array of
traces (or `null`, which Go leaves as the nil slice); anything else, or
any failing element, is a decode error. -/
def decodeTraces : Json → Except String (List Trace)
  | Json.null => Except.ok []
  | Json.arr es =>
    match es.mapM decodeTrace with
    | some ts => Except.ok ts
    | none => Except.error "json: cannot unmarshal value"
  | _ => Except.error "json: cannot unmarshal value"

/-- parseTraces models the Go function `ParseTraces` on a decoded
payload: on failure it wraps the unmarshal error and returns no trace
sequence at all (the Go function returns `nil, err`). -/
def parseTraces (j : Json) : Except String (List Trace) :=
  match decodeTraces j with
  | Except.ok ts => Except.ok ts
  | Except.error e => Except.error ("error unmarshaling traces: " ++ e)

/-- Schema check, written from the spec's schema description: a string
field accepts a string (or JSON `null`, a decoding no-op). -/
def matchesStringOrNull : Json → Bool
  | Json.str _ => true
  | Json.null => true
  | _ => false

/-- Schema check: a timestamp field accepts a quoted RFC 3339 string (or
`null`). -/
def matchesTime : Json → Bool
  | Json.str s => (parseRFC3339 s).isSome
  | Json.null => true
  | _ => false

/-- Schema check: a string→string attribute mapping accepts an object
whose values are all strings (or `null`s), or `null`. -/
def matchesAttrs : Json → Bool
  | Json.obj fs => fs.all (fun kv => matchesStringOrNull kv.2)
  | Json.null => true
  | _ => false

/-- Schema check for an event `{time, name, attributes}`; keys are
matched case-insensitively, unknown keys are allowed. -/
def matchesEvent : Json → Bool
  | Json.null => true
  | Json.obj fs =>
    fs.all (fun kv =>
      let key := kv.1.toLower
      if key == "time" then matchesTime kv.2
      else if key == "name" then matchesStringOrNull kv.2
      else if key == "attributes" then matchesAttrs kv.2
      else true)
  | _ => false

/-- Schema check for a span object. -/
def matchesSpan : Json → Bool
  | Json.null => true
  | Json.obj fs =>
    fs.all (fun kv =>
      let key := kv.1.toLower
      if key == "span_id" then matchesStringOrNull kv.2
      else if key == "parent_span_id" then matchesStringOrNull kv.2
      else if key == "name" then matchesStringOrNull kv.2
      else if key == "start_time" then matchesTime kv.2
      else if key == "end_time" then matchesTime kv.2
      else if key == "attributes" then matchesAttrs kv.2
      else if key == "events" then
        match kv.2 with
        | Json.arr es => es.all matchesEvent
        | Json.null => true
        | _ => false
      else true)
  | _ => false

/-- Schema check for a trace object. -/
def matchesTrace : Json → Bool
  | Json.null => true
  | Json.obj fs =>
    fs.all (fun kv =>
      let key := kv.1.toLower
      if key == "trace_id" then matchesStringOrNull kv.2
      else if key == "spans" then
        match kv.2 with
        | Json.arr es => es.all matchesSpan
        | Json.null => true
        | _ => false
      else if key == "attributes" then matchesAttrs kv.2
      else if key == "resource_attributes" then matchesAttrs kv.2
      else true)
  | _ => false

/-- Schema check for the whole payload: an ordered sequence of traces
(or `null`, which decodes to the nil slice). -/
def matchesTraceList : Json → Bool
  | Json.null => true
  | Json.arr es => es.all matchesTrace
  | _ => false

lemma foldlM_isSome_of_indep {γ δ : Type} (step : γ → δ → Option γ) (ok : δ → Bool)
    (h : ∀ acc kv, (step acc kv).isSome = ok kv) :
    ∀ (l : List δ) (z : γ), (l.foldlM step z).isSome = l.all ok := by
  intro l
  induction l with
  | nil => intro z; rfl
  | cons kv rest ih =>
    intro z
    rw [List.foldlM_cons, List.all_cons]
    cases hstep : step z kv with
    | none =>
      have hok : ok kv = false := by rw [← h z kv, hstep]; rfl
      rw [hok]
      simp
    | some z2 =>
      have hok : ok kv = true := by rw [← h z kv, hstep]; rfl
      rw [hok, Bool.true_and]
      simpa using ih z2

lemma mapM_isSome_all {δ ε : Type} (f : δ → Option ε) (l : List δ) :
    (l.mapM f).isSome = l.all (fun x => (f x).isSome) := by
  induction l with
  | nil => rfl
  | cons x rest ih =>
    rw [List.mapM_cons, List.all_cons]
    cases hx : f x with
    | none => simp [hx]
    | some y =>
      rw [← ih]
      cases hr : rest.mapM f <;> simp [hx, hr]

lemma decodeAttrsMap_isSome (fs : List (String × Json)) :
    (decodeAttrsMap fs).isSome = fs.all (fun kv => matchesStringOrNull kv.2) := by
  refine foldlM_isSome_of_indep _ _ ?_ fs []
  intro acc kv
  cases kv.2 <;> rfl

lemma decodeEvent_isSome (j : Json) : (decodeEvent j).isSome = matchesEvent j := by
  cases j with
  | null => rfl
  | bool b => rfl
  | num l => rfl
  | str s => rfl
  | arr es => rfl
  | obj fs =>
    simp only [decodeEvent, matchesEvent]
    refine foldlM_isSome_of_indep _ _ ?_ fs zeroEvent
    intro acc kv
    rcases kv with ⟨k, v⟩
    dsimp only
    split_ifs
    · cases v with
      | str s => cases hp : parseRFC3339 s <;> simp [matchesTime, hp]
      | null => rfl
      | bool b => rfl
      | num l => rfl
      | arr es => rfl
      | obj fs2 => rfl
    · cases v <;> rfl
    · cases v with
      | obj fs2 =>
        show (match decodeAttrsMap fs2 with
              | some m => some { acc with attributes := m }
              | none => none).isSome = matchesAttrs (Json.obj fs2)
        rw [show matchesAttrs (Json.obj fs2) = fs2.all (fun kv => matchesStringOrNull kv.2)
              from rfl,
            ← decodeAttrsMap_isSome]
        cases decodeAttrsMap fs2 <;> rfl
      | null => rfl
      | bool b => rfl
      | num l => rfl
      | str s => rfl
      | arr es => rfl
    · rfl

lemma all_eq_mapM_isSome {δ ε : Type} (f : δ → Option ε) (ok : δ → Bool)
    (h : ∀ x, (f x).isSome = ok x) (es : List δ) :
    es.all ok = (es.mapM f).isSome := by
  rw [mapM_isSome_all]
  exact congrArg (List.all es) (funext fun e => (h e).symm)

lemma decodeSpan_isSome (j : Json) : (decodeSpan j).isSome = matchesSpan j := by
  cases j with
  | null => rfl
  | bool b => rfl
  | num l => rfl
  | str s => rfl
  | arr es => rfl
  | obj fs =>
    simp only [decodeSpan, matchesSpan]
    refine foldlM_isSome_of_indep _ _ ?_ fs zeroSpan
    intro acc kv
    rcases kv with ⟨k, v⟩
    dsimp only
    split_ifs
    · cases v <;> rfl
    · cases v <;> rfl
    · cases v <;> rfl
    · cases v with
      | str s => cases hp : parseRFC3339 s <;> simp [matchesTime, hp]
      | null => rfl
      | bool b => rfl
      | num l => rfl
      | arr es => rfl
      | obj fs2 => rfl
    · cases v with
      | str s => cases hp : parseRFC3339 s <;> simp [matchesTime, hp]
      | null => rfl
      | bool b => rfl
      | num l => rfl
      | arr es => rfl
      | obj fs2 => rfl
    · cases v with
      | obj fs2 =>
        dsimp only
        rw [show matchesAttrs (Json.obj fs2) = fs2.all (fun kv => matchesStringOrNull kv.2)
              from rfl,
            ← decodeAttrsMap_isSome]
        cases decodeAttrsMap fs2 <;> rfl
      | null => rfl
      | bool b => rfl
      | num l => rfl
      | str s => rfl
      | arr es => rfl
    · cases v with
      | arr es =>
        dsimp only
        rw [all_eq_mapM_isSome decodeEvent matchesEvent decodeEvent_isSome es]
        cases es.mapM decodeEvent <;> rfl
      | null => rfl
      | bool b => rfl
      | num l => rfl
      | str s => rfl
      | obj fs2 => rfl
    · rfl

lemma decodeTrace_isSome (j : Json) : (decodeTrace j).isSome = matchesTrace j := by
  cases j with
  | null => rfl
  | bool b => rfl
  | num l => rfl
  | str s => rfl
  | arr es => rfl
  | obj fs =>
    simp only [decodeTrace, matchesTrace]
    refine foldlM_isSome_of_indep _ _ ?_ fs zeroTrace
    intro acc kv
    rcases kv with ⟨k, v⟩
    dsimp only
    split_ifs
    · cases v <;> rfl
    · cases v with
      | arr es =>
        dsimp only
        rw [all_eq_mapM_isSome decodeSpan matchesSpan decodeSpan_isSome es]
        cases es.mapM decodeSpan <;> rfl
      | null => rfl
      | bool b => rfl
      | num l => rfl
      | str s => rfl
      | obj fs2 => rfl
    · cases v with
      | obj fs2 =>
        dsimp only
        rw [show matchesAttrs (Json.obj fs2) = fs2.all (fun kv => matchesStringOrNull kv.2)
              from rfl,
            ← decodeAttrsMap_isSome]
        cases decodeAttrsMap fs2 <;> rfl
      | null => rfl
      | bool b => rfl
      | num l => rfl
      | str s => rfl
      | arr es => rfl
    · cases v with
      | obj fs2 =>
        dsimp only
        rw [show matchesAttrs (Json.obj fs2) = fs2.all (fun kv => matchesStringOrNull kv.2)
              from rfl,
            ← decodeAttrsMap_isSome]
        cases decodeAttrsMap fs2 <;> rfl
      | null => rfl
      | bool b => rfl
      | num l => rfl
      | str s => rfl
      | arr es => rfl
    · rfl

lemma decodeTraces_isOk (j : Json) : (decodeTraces j).isOk = matchesTraceList j := by
  cases j with
  | null => rfl
  | bool b => rfl
  | num l => rfl
  | str s => rfl
  | obj fs => rfl
  | arr es =>
    simp only [decodeTraces, matchesTraceList]
    rw [all_eq_mapM_isSome decodeTrace matchesTrace decodeTrace_isSome es]
    cases es.mapM decodeTrace <;> rfl

/-- C9: the decoder succeeds exactly when the payload denotes a JSON
value matching the Trace schema (as `encoding/json` reads it: a trace
array or `null` at top level; strings, RFC 3339 timestamp strings,
string→string attribute objects and nested span/event shapes below, with
`null` accepted anywhere as a no-op and unknown keys ignored); the empty
top-level list succeeds with zero traces; and on any non-matching
payload the result is exactly a wrapped error carrying no partial trace
sequence. -/
theorem parseTraces_spec :
    (∀ j : Json, (parseTraces j).isOk = matchesTraceList j)
    ∧ parseTraces (Json.arr []) = Except.ok []
    ∧ ∀ j : Json, matchesTraceList j = false →
        parseTraces j = Except.error ("error unmarshaling traces: json: cannot unmarshal value") := by
  refine ⟨?_, rfl, ?_⟩
  · intro j
    unfold parseTraces
    rw [← decodeTraces_isOk j]
    cases decodeTraces j <;> rfl
  · intro j hm
    have h2 : decodeTraces j = Except.error "json: cannot unmarshal value" := by
      cases j with
      | null => simp [matchesTraceList] at hm
      | bool b => rfl
      | num l => rfl
      | str s => rfl
      | obj fs => rfl
      | arr es =>
        simp only [matchesTraceList] at hm
        rw [all_eq_mapM_isSome decodeTrace matchesTrace decodeTrace_isSome es] at hm
        simp only [decodeTraces]
        cases hr : es.mapM decodeTrace with
        | some ts =>
          rw [hr] at hm
          simp at hm
        | none => rfl
    unfold parseTraces
    rw [h2]
    rfl

/-- Witness for C9 at a concrete non-matching payload (a top-level
string). -/
theorem parseTraces_spec_witness :
    matchesTraceList (Json.str "x") = false
    ∧ parseTraces (Json.str "x")
        = Except.error ("error unmarshaling traces: json: cannot unmarshal value") :=
  ⟨rfl, parseTraces_spec.2.2 (Json.str "x") rfl⟩

end OtelCompare
